import Mathlib

/-!
Verification of the 10minutemail service (Node.js) against its specification.

The definitions below are a shallow embedding of the relevant source modules:
  * the AES-256-GCM credential packing (`encrypt` / `decrypt`, src/unnamed/part_012),
  * the Bearer-token middleware (`authenticate` / `authorizeInbox`, src/unnamed/part_012),
  * the inbox repository (`deleteInbox`, src/unnamed/part_006),
  * the message repository (`storeMessages`, src/db/repositories/messages.js),
  * the mail fetch worker (src/internal/mail/worker.js),
  * the POP3 client buffer/timeout logic (src/unnamed/part_009),
  * the POP3 connection pool (src/internal/pop3/pool.js).

Bytes are modelled as `Nat` values `< 256`; machine-level primitives that live in
Node's standard library (the AES-GCM core, SHA-256) are parameters of the
embedding, constrained by their documented contracts.
-/

/-- Boolean prefix test on character lists. -/
def listPrefixOf : List Char → List Char → Bool
  | [], _ => true
  | _ :: _, [] => false
  | a :: as, b :: bs => a == b && listPrefixOf as bs

/-- Boolean contiguous-sublist test on character lists. -/
def listInfixOf (sub : List Char) : List Char → Bool
  | [] => sub.isEmpty
  | c :: rest => listPrefixOf sub (c :: rest) || listInfixOf sub rest

/-- JavaScript `String.prototype.includes`: substring containment. -/
def jsIncludes (s sub : String) : Bool :=
  listInfixOf sub.toList s.toList

/-- JavaScript `String.prototype.startsWith`. -/
def jsStartsWith (s pre : String) : Bool :=
  listPrefixOf pre.toList s.toList

/-- First word of a command, as in `command.split(' ')[0]`. -/
def firstWord (cmd : String) : String :=
  String.mk (cmd.toList.takeWhile (fun c => c != ' '))

/-! ## Base64 (Node `Buffer.toString('base64')` / `Buffer.from(s, 'base64')`)

The credential blobs produced by the encryption module are transported
base64-encoded; `decrypt` measures the *decoded* byte length. -/

/-- The standard base64 alphabet. -/
def b64Alphabet : List Char :=
  ['A', 'B', 'C', 'D', 'E', 'F', 'G', 'H', 'I', 'J', 'K', 'L', 'M',
   'N', 'O', 'P', 'Q', 'R', 'S', 'T', 'U', 'V', 'W', 'X', 'Y', 'Z',
   'a', 'b', 'c', 'd', 'e', 'f', 'g', 'h', 'i', 'j', 'k', 'l', 'm',
   'n', 'o', 'p', 'q', 'r', 's', 't', 'u', 'v', 'w', 'x', 'y', 'z',
   '0', '1', '2', '3', '4', '5', '6', '7', '8', '9', '+', '/']

/-- Character for a 6-bit group. -/
def b64Char (n : Nat) : Char :=
  b64Alphabet.getD n 'A'

/-- Index of a base64 character; `none` for characters outside the alphabet
(including the `=` padding, which carries no data). -/
def b64Index (ch : Char) : Option Nat :=
  let i := b64Alphabet.indexOf ch
  if i < 64 then some i else none

/-- Encode a byte list into base64 characters, three bytes at a time, with
`=` padding for a trailing group of one or two bytes. -/
def encodeChunks : List Nat → List Char
  | a :: b :: c :: rest =>
    let n := a * 65536 + b * 256 + c
    b64Char (n / 262144) :: b64Char (n / 4096 % 64) :: b64Char (n / 64 % 64) ::
      b64Char (n % 64) :: encodeChunks rest
  | [a, b] =>
    let n := a * 1024 + b * 4
    [b64Char (n / 4096), b64Char (n / 64 % 64), b64Char (n % 64), '=']
  | [a] =>
    let n := a * 16
    [b64Char (n / 64), b64Char (n % 64), '=', '=']
  | [] => []

/-- Decode a list of 6-bit groups into bytes, four groups at a time; a trailing
group of three (resp. two) sextets yields two bytes (resp. one), and a single
leftover sextet is dropped, as Node's decoder does. -/
def decodeQuads : List Nat → List Nat
  | s1 :: s2 :: s3 :: s4 :: rest =>
    let n := s1 * 262144 + s2 * 4096 + s3 * 64 + s4
    n / 65536 :: n / 256 % 256 :: n % 256 :: decodeQuads rest
  | [s1, s2, s3] =>
    let n := s1 * 4096 + s2 * 64 + s3
    [n / 1024, n / 4 % 256]
  | [s1, s2] =>
    let n := s1 * 64 + s2
    [n / 16]
  | [_] => []
  | [] => []

/-- Base64-encode a byte list (`packed.toString('base64')`). -/
def base64encode (bytes : List Nat) : String :=
  String.mk (encodeChunks bytes)

/-- Base64-decode a string (`Buffer.from(s, 'base64')`), ignoring characters
outside the alphabet. -/
def base64decode (s : String) : List Nat :=
  decodeQuads (s.toList.filterMap b64Index)

theorem b64Index_b64Char : ∀ n, n < 64 → b64Index (b64Char n) = some n := by
  decide

theorem b64Index_pad : b64Index '=' = none := by
  decide

theorem decodeQuads_encodeChunks :
    ∀ l : List Nat, (∀ b ∈ l, b < 256) →
      decodeQuads ((encodeChunks l).filterMap b64Index) = l
  | [], _ => rfl
  | [a], h => by
    have ha : a < 256 := h a (by simp)
    have h1 : a * 16 / 64 < 64 := by omega
    have h2 : a * 16 % 64 < 64 := by omega
    simp only [encodeChunks, List.filterMap_cons, b64Index_b64Char _ h1,
      b64Index_b64Char _ h2, b64Index_pad, List.filterMap_nil, decodeQuads,
      List.cons.injEq, and_true]
    omega
  | [a, b], h => by
    have ha : a < 256 := h a (by simp)
    have hb : b < 256 := h b (by simp)
    have h1 : (a * 1024 + b * 4) / 4096 < 64 := by omega
    have h2 : (a * 1024 + b * 4) / 64 % 64 < 64 := by omega
    have h3 : (a * 1024 + b * 4) % 64 < 64 := by omega
    simp only [encodeChunks, List.filterMap_cons, b64Index_b64Char _ h1,
      b64Index_b64Char _ h2, b64Index_b64Char _ h3, b64Index_pad,
      List.filterMap_nil, decodeQuads, List.cons.injEq, and_true]
    exact ⟨by omega, by omega⟩
  | a :: b :: c :: d :: rest, h => by
    have ha : a < 256 := h a (by simp)
    have hb : b < 256 := h b (by simp)
    have hc : c < 256 := h c (by simp)
    have ih := decodeQuads_encodeChunks (d :: rest)
      (fun x hx => h x (List.mem_cons_of_mem a (List.mem_cons_of_mem b
        (List.mem_cons_of_mem c hx))))
    have h1 : (a * 65536 + b * 256 + c) / 262144 < 64 := by omega
    have h2 : (a * 65536 + b * 256 + c) / 4096 % 64 < 64 := by omega
    have h3 : (a * 65536 + b * 256 + c) / 64 % 64 < 64 := by omega
    have h4 : (a * 65536 + b * 256 + c) % 64 < 64 := by omega
    simp only [encodeChunks, List.filterMap_cons, b64Index_b64Char _ h1,
      b64Index_b64Char _ h2, b64Index_b64Char _ h3, b64Index_b64Char _ h4,
      decodeQuads, List.cons.injEq]
    refine ⟨by omega, by omega, by omega, ih⟩
  | [a, b, c], h => by
    have ha : a < 256 := h a (by simp)
    have hb : b < 256 := h b (by simp)
    have hc : c < 256 := h c (by simp)
    have h1 : (a * 65536 + b * 256 + c) / 262144 < 64 := by omega
    have h2 : (a * 65536 + b * 256 + c) / 4096 % 64 < 64 := by omega
    have h3 : (a * 65536 + b * 256 + c) / 64 % 64 < 64 := by omega
    have h4 : (a * 65536 + b * 256 + c) % 64 < 64 := by omega
    simp only [encodeChunks, List.filterMap_cons, b64Index_b64Char _ h1,
      b64Index_b64Char _ h2, b64Index_b64Char _ h3, b64Index_b64Char _ h4,
      List.filterMap_nil, decodeQuads, List.cons.injEq, and_true]
    refine ⟨by omega, by omega, by omega⟩

theorem base64decode_base64encode (l : List Nat) (h : ∀ b ∈ l, b < 256) :
    base64decode (base64encode l) = l := by
  have : (String.mk (encodeChunks l)).toList = encodeChunks l := rfl
  rw [base64decode, base64encode, this, decodeQuads_encodeChunks l h]

/-! ## Credential encryption (src/unnamed/part_012, `encrypt` / `decrypt`)

The AES-256-GCM core lives in `node:crypto`; the repository's own code packs
`IV (12) + authTag (16) + ciphertext` and base64-encodes the result, and on
decryption unpacks that layout after a minimum-length check. The cipher core
is a parameter constrained by the GCM contract. -/

def IV_LENGTH : Nat := 12

def AUTH_TAG_LENGTH : Nat := 16

/-- An authenticated cipher core: `enc key iv plaintext = (ciphertext, authTag)`
and `dec key iv ciphertext authTag` returns `some plaintext` on success and
`none` on authentication failure. -/
structure GcmCipher where
  enc : List Nat → List Nat → List Nat → List Nat × List Nat
  dec : List Nat → List Nat → List Nat → List Nat → Option (List Nat)

/-- The AES-GCM contract: on byte-valued plaintexts, the ciphertext has the
plaintext's length, the tag has 16 bytes, both are byte-valued, and decryption
with the matching tag recovers the plaintext. -/
def GcmCorrect (c : GcmCipher) : Prop :=
  ∀ key iv pt, (∀ x ∈ pt, x < 256) →
    (c.enc key iv pt).1.length = pt.length ∧
    (c.enc key iv pt).2.length = AUTH_TAG_LENGTH ∧
    (∀ x ∈ (c.enc key iv pt).1, x < 256) ∧
    (∀ x ∈ (c.enc key iv pt).2, x < 256) ∧
    c.dec key iv (c.enc key iv pt).1 (c.enc key iv pt).2 = some pt

/-- Model of `encrypt(plaintext)`: pack `iv ++ authTag ++ ciphertext` and
base64-encode. The random `iv` is a parameter (the source draws
`randomBytes(12)`). -/
def encrypt (c : GcmCipher) (key iv pt : List Nat) : String :=
  let ct := (c.enc key iv pt).1
  let tag := (c.enc key iv pt).2
  base64encode (iv ++ tag ++ ct)

/-- Model of `decrypt(encryptedBase64)`: decode, reject anything shorter than
`IV_LENGTH + AUTH_TAG_LENGTH + 1`, split the layout, and authenticate.
Errors carry the `EncryptionError` messages of the source. -/
def decrypt (c : GcmCipher) (key : List Nat) (blob : String) : Except String (List Nat) :=
  let packed := base64decode blob
  if packed.length < IV_LENGTH + AUTH_TAG_LENGTH + 1 then
    .error "Decryption failed: Invalid encrypted data: too short"
  else
    let iv := packed.take IV_LENGTH
    let tag := (packed.drop IV_LENGTH).take AUTH_TAG_LENGTH
    let ct := packed.drop (IV_LENGTH + AUTH_TAG_LENGTH)
    match c.dec key iv ct tag with
    | some pt => .ok pt
    | none => .error "Decryption failed: Unsupported state or unable to authenticate data"

/-- A concrete cipher core satisfying the GCM contract, used to evaluate the
packing layer on explicit inputs: the ciphertext is the plaintext itself and
the tag is sixteen zero bytes, checked on decryption. -/
def modelGcm : GcmCipher where
  enc := fun _ _ pt => (pt, List.replicate 16 0)
  dec := fun _ _ ct tag => if tag = List.replicate 16 0 then some ct else none

theorem modelGcm_correct : GcmCorrect modelGcm := by
  intro key iv pt hpt
  refine ⟨rfl, rfl, hpt, ?_, ?_⟩
  · intro x hx
    simp [modelGcm] at hx
    omega
  · simp [modelGcm]

/-- Packing layout of an encrypted blob after decoding. -/
theorem base64decode_encrypt (c : GcmCipher) (key iv pt : List Nat)
    (hivb : ∀ x ∈ iv, x < 256)
    (hctb : ∀ x ∈ (c.enc key iv pt).1, x < 256)
    (htagb : ∀ x ∈ (c.enc key iv pt).2, x < 256) :
    base64decode (encrypt c key iv pt) =
      iv ++ (c.enc key iv pt).2 ++ (c.enc key iv pt).1 := by
  rw [encrypt]
  refine base64decode_base64encode _ ?_
  intro x hx
  rcases List.mem_append.1 hx with hx | hx
  · rcases List.mem_append.1 hx with hx | hx
    · exact hivb x hx
    · exact htagb x hx
  · exact hctb x hx

/-- C1, amended: for every non-empty byte plaintext the GCM blob round-trips,
and any blob whose decoded length is below `IV + tag + 1 = 29` bytes is
rejected with the encryption-failure error. -/
theorem C1_crypto_roundtrip (c : GcmCipher) (hc : GcmCorrect c) (key iv pt : List Nat)
    (hiv : iv.length = IV_LENGTH) (hivb : ∀ x ∈ iv, x < 256)
    (hpt : ∀ x ∈ pt, x < 256) (hne : pt ≠ []) :
    decrypt c key (encrypt c key iv pt) = .ok pt ∧
    ∀ blob, (base64decode blob).length < IV_LENGTH + AUTH_TAG_LENGTH + 1 →
      decrypt c key blob = .error "Decryption failed: Invalid encrypted data: too short" := by
  obtain ⟨hlen, htlen, hctb, htagb, hdec⟩ := hc key iv pt hpt
  constructor
  · have hpacked := base64decode_encrypt c key iv pt hivb hctb htagb
    have hlength : (iv ++ (c.enc key iv pt).2 ++ (c.enc key iv pt).1).length =
        28 + pt.length := by
      simp [List.length_append, hiv, htlen, hlen, IV_LENGTH, AUTH_TAG_LENGTH]
      omega
    have hptpos : 1 ≤ pt.length := by
      cases pt with
      | nil => exact absurd rfl hne
      | cons a l => simp
    rw [decrypt, hpacked]
    rw [if_neg (by rw [hlength]; simp [IV_LENGTH, AUTH_TAG_LENGTH]; omega)]
    have htake : (iv ++ (c.enc key iv pt).2 ++ (c.enc key iv pt).1).take IV_LENGTH = iv := by
      rw [List.append_assoc]
      exact List.take_left' hiv
    have hdrop : (iv ++ (c.enc key iv pt).2 ++ (c.enc key iv pt).1).drop IV_LENGTH =
        (c.enc key iv pt).2 ++ (c.enc key iv pt).1 := by
      rw [List.append_assoc]
      exact List.drop_left' hiv
    have htag : ((c.enc key iv pt).2 ++ (c.enc key iv pt).1).take AUTH_TAG_LENGTH =
        (c.enc key iv pt).2 := List.take_left' htlen
    have hct : (iv ++ (c.enc key iv pt).2 ++ (c.enc key iv pt).1).drop
        (IV_LENGTH + AUTH_TAG_LENGTH) = (c.enc key iv pt).1 := by
      refine List.drop_left' ?_
      simp [hiv, htlen, IV_LENGTH, AUTH_TAG_LENGTH]
    simp only [htake, hdrop, htag, hct, hdec]
  · intro blob hshort
    rw [decrypt, if_pos hshort]

/-- C1 counterexample: under a cipher satisfying the GCM contract, the empty
plaintext encrypts to a 28-byte packed blob (12 IV + 16 tag + 0 ciphertext),
which `decrypt` rejects as too short — the round-trip fails at `p = ""`. -/
theorem C1_empty_plaintext_fails :
    GcmCorrect modelGcm ∧
    decrypt modelGcm [] (encrypt modelGcm [] (List.replicate 12 0) []) =
      .error "Decryption failed: Invalid encrypted data: too short" ∧
    decrypt modelGcm [] (encrypt modelGcm [] (List.replicate 12 0) []) ≠
      Except.ok [] := by
  have h : decrypt modelGcm [] (encrypt modelGcm [] (List.replicate 12 0) []) =
      .error "Decryption failed: Invalid encrypted data: too short" := by rfl
  refine ⟨modelGcm_correct, h, ?_⟩
  rw [h]
  simp

/-- Witness for `C1_crypto_roundtrip` at a one-byte plaintext. -/
theorem C1_crypto_roundtrip_witness :
    decrypt modelGcm [] (encrypt modelGcm [] (List.replicate 12 0) [1]) = .ok [1] ∧
    decrypt modelGcm [] "" =
      .error "Decryption failed: Invalid encrypted data: too short" := by
  have h := C1_crypto_roundtrip modelGcm modelGcm_correct [] (List.replicate 12 0) [1]
    (by rfl) (by decide) (by decide) (by decide)
  exact ⟨h.1, h.2 "" (by decide)⟩

/-! ## Data model (docker/postgres/init.sql) and error kinds (src/pkg/errors) -/

/-- Error kinds raised by the service (src/pkg/errors.js). -/
inductive ApiError
  | authentication (msg : String)
  | authorization (msg : String)
  | notFound (resource id : String)
  | encryption (msg : String)
  | pop3 (msg : String)
deriving DecidableEq, Repr

/-- A row of the `tokens` table (columns used by the middleware and the
inbox repository). -/
structure TokenRow where
  id : String
  inbox_id : String
  token_hash : String
  status : String
  expires_at : Int
  revoked_at : Option Int
deriving DecidableEq, Repr

/-- A row of the `inboxes` table (columns used by the claims). -/
structure InboxRow where
  id : String
  status : String
  pop3_username_enc : String
  pop3_password_enc : String
  last_seen_uid : Option String
  deleted_at : Option Int
deriving DecidableEq, Repr

/-- A row of the `messages` table (columns used by the claims; `id` is the
database-assigned key). -/
structure MessageRow where
  id : Nat
  inbox_id : String
  uid : String
deriving DecidableEq, Repr

/-- A row of the `attachments` table (columns used by the claims). -/
structure AttachmentRow where
  id : Nat
  message_id : Nat
  inbox_id : String
  filename : String
  checksum_sha256 : String
deriving DecidableEq, Repr

/-- The store; `nextId` models the database's key sequence. -/
structure Db where
  inboxes : List InboxRow
  tokens : List TokenRow
  messages : List MessageRow
  attachments : List AttachmentRow
  nextId : Nat
deriving DecidableEq, Repr

def TOKEN_STATUS_ACTIVE : String := "active"

def INBOX_STATUS_ACTIVE : String := "active"

def INBOX_STATUS_DELETED : String := "deleted"

/-! ## Bearer-token middleware (src/unnamed/part_012, `authenticate` /
`authorizeInbox`)

`hashToken` (SHA-256 from `node:crypto`) is a parameter of the embedding.
`authenticate` performs a single `SELECT` joining `tokens` and `inboxes`;
it returns the store unchanged alongside its result, which makes the
absence of writes part of the statement. -/

/-- The join `tokens t JOIN inboxes i ON i.id = t.inbox_id WHERE t.token_hash = h`. -/
def authLookup (db : Db) (h : String) : List (TokenRow × InboxRow) :=
  (db.tokens.filter (fun t => t.token_hash == h)).flatMap
    (fun t => (db.inboxes.filter (fun i => i.id == t.inbox_id)).map (fun i => (t, i)))

/-- Model of the `authenticate` preHandler: on success returns
`(inbox_id, token id)` attached to the request. -/
def authenticate (hashToken : String → String) (now : Int) (authHeader : Option String)
    (db : Db) : Db × Except ApiError (String × String) :=
  match authHeader with
  | none => (db, .error (.authentication "Missing or malformed Authorization header"))
  | some hdr =>
    if ¬ jsStartsWith hdr "Bearer " then
      (db, .error (.authentication "Missing or malformed Authorization header"))
    else
      let rawToken := hdr.drop 7
      if rawToken = "" then (db, .error (.authentication "Empty bearer token"))
      else
        match authLookup db (hashToken rawToken) with
        | [] => (db, .error (.authentication "Token not found"))
        | row :: _ =>
          if row.1.status ≠ TOKEN_STATUS_ACTIVE then
            (db, .error (.authentication "Token has been revoked"))
          else if row.1.expires_at < now then
            (db, .error (.authentication "Token has expired"))
          else if row.2.status ≠ "active" then
            (db, .error (.authorization "Inbox is not active"))
          else (db, .ok (row.1.inbox_id, row.1.id))

/-- Model of the `authorizeInbox` preHandler: a present, non-empty `:id` path
parameter must equal the authenticated inbox id. -/
def authorizeInbox (paramId : Option String) (inboxId : String) : Except ApiError Unit :=
  match paramId with
  | some i => if i ≠ "" ∧ inboxId ≠ i then
      .error (.authorization "Token does not grant access to this inbox")
    else .ok ()
  | none => .ok ()

/-- C2: on an authenticated request the checks run in order, each rejection
yields the documented error, and the store is returned unchanged (the
middleware performs a single read): missing or malformed header, unknown
hash, revoked token (checked before expiry), expired token (checked before
the inbox status), inactive inbox, and a mismatched `:id` path parameter. -/
theorem C2_auth_rejections (hashToken : String → String) (now : Int) (db : Db) :
    (authenticate hashToken now none db =
      (db, .error (.authentication "Missing or malformed Authorization header"))) ∧
    (∀ hdr, ¬ jsStartsWith hdr "Bearer " →
      authenticate hashToken now (some hdr) db =
        (db, .error (.authentication "Missing or malformed Authorization header"))) ∧
    (∀ hdr, jsStartsWith hdr "Bearer " → hdr.drop 7 ≠ "" →
      authLookup db (hashToken (hdr.drop 7)) = [] →
      authenticate hashToken now (some hdr) db =
        (db, .error (.authentication "Token not found"))) ∧
    (∀ hdr r rest, jsStartsWith hdr "Bearer " → hdr.drop 7 ≠ "" →
      authLookup db (hashToken (hdr.drop 7)) = r :: rest →
      r.1.status ≠ TOKEN_STATUS_ACTIVE →
      authenticate hashToken now (some hdr) db =
        (db, .error (.authentication "Token has been revoked"))) ∧
    (∀ hdr r rest, jsStartsWith hdr "Bearer " → hdr.drop 7 ≠ "" →
      authLookup db (hashToken (hdr.drop 7)) = r :: rest →
      r.1.status = TOKEN_STATUS_ACTIVE → r.1.expires_at < now →
      authenticate hashToken now (some hdr) db =
        (db, .error (.authentication "Token has expired"))) ∧
    (∀ hdr r rest, jsStartsWith hdr "Bearer " → hdr.drop 7 ≠ "" →
      authLookup db (hashToken (hdr.drop 7)) = r :: rest →
      r.1.status = TOKEN_STATUS_ACTIVE → ¬ r.1.expires_at < now →
      r.2.status ≠ "active" →
      authenticate hashToken now (some hdr) db =
        (db, .error (.authorization "Inbox is not active"))) ∧
    (∀ pid inboxId, pid ≠ "" → inboxId ≠ pid →
      authorizeInbox (some pid) inboxId =
        .error (.authorization "Token does not grant access to this inbox")) := by
  refine ⟨rfl, ?_, ?_, ?_, ?_, ?_, ?_⟩
  · intro hdr hbs
    simp [authenticate, hbs]
  · intro hdr hbs hne hlook
    simp [authenticate, hbs, hne, hlook]
  · intro hdr r rest hbs hne hlook hst
    simp [authenticate, hbs, hne, hlook, hst]
  · intro hdr r rest hbs hne hlook hst hexp
    simp [authenticate, hbs, hne, hlook, hst, hexp]
  · intro hdr r rest hbs hne hlook hst hexp hist
    simp [authenticate, hbs, hne, hlook, hst, hexp, hist]
  · intro pid inboxId hpid hmm
    simp [authorizeInbox, hpid, hmm]

/-- Sample inbox row used to exercise the middleware. -/
def sampleInboxActive : InboxRow :=
  { id := "i1", status := "active", pop3_username_enc := "u", pop3_password_enc := "p",
    last_seen_uid := none, deleted_at := none }

/-- Sample deleted inbox row. -/
def sampleInboxDeleted : InboxRow :=
  { sampleInboxActive with status := "deleted", deleted_at := some 1 }

/-- Sample revoked token. -/
def sampleTokenRevoked : TokenRow :=
  { id := "t1", inbox_id := "i1", token_hash := "h", status := "revoked",
    expires_at := 100, revoked_at := some 5 }

/-- Sample active token. -/
def sampleTokenActive : TokenRow :=
  { sampleTokenRevoked with status := "active", revoked_at := none }

/-- Store with a revoked token joined to an active inbox. -/
def sampleDbRevoked : Db :=
  { inboxes := [sampleInboxActive], tokens := [sampleTokenRevoked],
    messages := [], attachments := [], nextId := 0 }

/-- Store with an active token joined to an active inbox. -/
def sampleDbActive : Db :=
  { sampleDbRevoked with tokens := [sampleTokenActive] }

/-- Store with an active token joined to a deleted inbox. -/
def sampleDbInboxGone : Db :=
  { sampleDbRevoked with tokens := [sampleTokenActive], inboxes := [sampleInboxDeleted] }

/-- Store with no tokens at all. -/
def sampleDbEmpty : Db :=
  { sampleDbRevoked with tokens := [] }

/-- Witness for `C2_auth_rejections`: each rejection surfaced on explicit
requests and stores. -/
theorem C2_auth_rejections_witness :
    (authenticate (fun _ => "h") 50 (some "Token abc") sampleDbEmpty =
      (sampleDbEmpty, .error (.authentication "Missing or malformed Authorization header"))) ∧
    (authenticate (fun _ => "h") 50 (some "Bearer abc") sampleDbEmpty =
      (sampleDbEmpty, .error (.authentication "Token not found"))) ∧
    (authenticate (fun _ => "h") 50 (some "Bearer abc") sampleDbRevoked =
      (sampleDbRevoked, .error (.authentication "Token has been revoked"))) ∧
    (authenticate (fun _ => "h") 200 (some "Bearer abc") sampleDbActive =
      (sampleDbActive, .error (.authentication "Token has expired"))) ∧
    (authenticate (fun _ => "h") 50 (some "Bearer abc") sampleDbInboxGone =
      (sampleDbInboxGone, .error (.authorization "Inbox is not active"))) ∧
    (authorizeInbox (some "i2") "i1" =
      .error (.authorization "Token does not grant access to this inbox")) := by
  refine ⟨?_, ?_, ?_, ?_, ?_, ?_⟩
  · exact (C2_auth_rejections (fun _ => "h") 50 sampleDbEmpty).2.1 "Token abc" (by decide)
  · exact (C2_auth_rejections (fun _ => "h") 50 sampleDbEmpty).2.2.1 "Bearer abc"
      (by decide) (by decide) (by decide)
  · exact (C2_auth_rejections (fun _ => "h") 50 sampleDbRevoked).2.2.2.1 "Bearer abc"
      (sampleTokenRevoked, sampleInboxActive) [] (by decide) (by decide) (by decide) (by decide)
  · exact (C2_auth_rejections (fun _ => "h") 200 sampleDbActive).2.2.2.2.1 "Bearer abc"
      (sampleTokenActive, sampleInboxActive) [] (by decide) (by decide) (by decide)
      (by decide) (by decide)
  · exact (C2_auth_rejections (fun _ => "h") 50 sampleDbInboxGone).2.2.2.2.2.1 "Bearer abc"
      (sampleTokenActive, sampleInboxDeleted) [] (by decide) (by decide) (by decide)
      (by decide) (by decide) (by decide)
  · exact (C2_auth_rejections (fun _ => "h") 50 sampleDbEmpty).2.2.2.2.2.2 "i2" "i1"
      (by decide) (by decide)

/-! ## Inbox repository (src/unnamed/part_006, `deleteInbox`)

The transaction first checks that an active inbox with the id exists, then
deletes the inbox's attachments and messages, revokes its active tokens, and
soft-deletes the inbox wiping both credential blobs. -/

/-- Model of `deleteInbox(id)`; `now` is the transaction's `NOW()`. -/
def deleteInbox (now : Int) (id : String) (db : Db) : Except ApiError (Db × String) :=
  if (db.inboxes.filter (fun i => i.id == id && i.status == INBOX_STATUS_ACTIVE)).isEmpty then
    .error (.notFound "Inbox" id)
  else
    let attachments' := db.attachments.filter (fun a => a.inbox_id != id)
    let messages' := db.messages.filter (fun m => m.inbox_id != id)
    let tokens' := db.tokens.map (fun t =>
      if t.inbox_id == id && t.status == "active" then
        { t with status := "revoked", revoked_at := some now }
      else t)
    let inboxes' := db.inboxes.map (fun i =>
      if i.id == id then
        { i with status := INBOX_STATUS_DELETED, deleted_at := some now,
                 pop3_username_enc := "", pop3_password_enc := "" }
      else i)
    .ok ({ db with attachments := attachments', messages := messages',
                   tokens := tokens', inboxes := inboxes' }, id)

/-- C3: after a successful `deleteInbox(id)` no message or attachment rows
remain for the inbox, every previously active token of the inbox is revoked
with `revoked_at` set (and none of its tokens remains active), and the inbox
row is `deleted` with `deleted_at` set and both credential blobs emptied. -/
theorem C3_cascade_delete (now : Int) (id : String) (db db' : Db) (rid : String)
    (h : deleteInbox now id db = .ok (db', rid)) :
    db'.messages.filter (fun m => m.inbox_id == id) = [] ∧
    db'.attachments.filter (fun a => a.inbox_id == id) = [] ∧
    (∀ t ∈ db.tokens, t.inbox_id = id → t.status = "active" →
      { t with status := "revoked", revoked_at := some now } ∈ db'.tokens) ∧
    (∀ t ∈ db'.tokens, t.inbox_id = id → t.status ≠ "active") ∧
    (∀ i ∈ db'.inboxes, i.id = id →
      i.status = INBOX_STATUS_DELETED ∧ i.deleted_at = some now ∧
      i.pop3_username_enc = "" ∧ i.pop3_password_enc = "") := by
  rw [deleteInbox] at h
  split at h
  · exact absurd h (by simp)
  · simp only [Except.ok.injEq, Prod.mk.injEq] at h
    obtain ⟨hdb, -⟩ := h
    subst hdb
    refine ⟨?_, ?_, ?_, ?_, ?_⟩
    · rw [List.filter_filter]
      refine List.filter_eq_nil_iff.2 ?_
      intro m _
      simp
    · rw [List.filter_filter]
      refine List.filter_eq_nil_iff.2 ?_
      intro a _
      simp
    · intro t ht hinb hst
      refine List.mem_map.2 ⟨t, ht, ?_⟩
      rw [if_pos (by simp [hinb, hst])]
    · intro t ht hinb
      obtain ⟨t0, -, hmap⟩ := List.mem_map.1 ht
      by_cases hc : (t0.inbox_id == id && t0.status == "active") = true
      · rw [if_pos hc] at hmap
        rw [← hmap]
        simp
      · rw [if_neg hc] at hmap
        subst hmap
        simp only [Bool.and_eq_true, beq_iff_eq, not_and] at hc
        intro hst
        exact hc hinb hst
    · intro i hi hid
      obtain ⟨i0, -, hmap⟩ := List.mem_map.1 hi
      by_cases hc : (i0.id == id) = true
      · rw [if_pos hc] at hmap
        rw [← hmap]
        simp
      · rw [if_neg hc] at hmap
        subst hmap
        simp only [beq_iff_eq] at hc
        exact absurd hid hc

/-- Sample message row in inbox `i1`. -/
def sampleMessage : MessageRow := { id := 1, inbox_id := "i1", uid := "u1" }

/-- Sample attachment row of `sampleMessage`. -/
def sampleAttachment : AttachmentRow :=
  { id := 2, message_id := 1, inbox_id := "i1", filename := "f", checksum_sha256 := "c" }

/-- Store with an active inbox, an active token, one message and one attachment. -/
def sampleDbFull : Db :=
  { inboxes := [sampleInboxActive], tokens := [sampleTokenActive],
    messages := [sampleMessage], attachments := [sampleAttachment], nextId := 3 }

/-- The wiped inbox row produced by the cascade delete. -/
def sampleInboxWiped : InboxRow :=
  { id := "i1", status := "deleted", pop3_username_enc := "", pop3_password_enc := "",
    last_seen_uid := none, deleted_at := some 10 }

/-- The revoked token row produced by the cascade delete. -/
def sampleTokenAfterRevoke : TokenRow :=
  { sampleTokenActive with status := "revoked", revoked_at := some 10 }

/-- The store produced by `deleteInbox 10 "i1" sampleDbFull`. -/
def sampleDbAfterDelete : Db :=
  { inboxes := [sampleInboxWiped], tokens := [sampleTokenAfterRevoke],
    messages := [], attachments := [], nextId := 3 }

/-- Equality of `Except` values is decidable when both components are. -/
instance {e a : Type} [DecidableEq e] [DecidableEq a] : DecidableEq (Except e a) := fun x y =>
  match x, y with
  | .ok v, .ok w =>
    if h : v = w then isTrue (by rw [h]) else isFalse (fun hc => h (Except.ok.inj hc))
  | .error v, .error w =>
    if h : v = w then isTrue (by rw [h]) else isFalse (fun hc => h (Except.error.inj hc))
  | .ok _, .error _ => isFalse (fun hc => Except.noConfusion hc)
  | .error _, .ok _ => isFalse (fun hc => Except.noConfusion hc)

/-- Witness for `C3_cascade_delete` on an explicit store. -/
theorem C3_cascade_delete_witness :
    (sampleTokenAfterRevoke ∈ sampleDbAfterDelete.tokens) ∧
    (sampleDbAfterDelete.messages.filter (fun m => m.inbox_id == "i1") = []) ∧
    (sampleDbAfterDelete.attachments.filter (fun a => a.inbox_id == "i1") = []) := by
  have h := C3_cascade_delete 10 "i1" sampleDbFull sampleDbAfterDelete "i1" (by decide)
  exact ⟨h.2.2.1 sampleTokenActive (by decide) (by decide) (by decide), h.1, h.2.1⟩

/-! ## Message repository (src/db/repositories/messages.js, `storeMessages`)

Each parsed message is inserted with `ON CONFLICT (inbox_id, uid) DO NOTHING`;
when the insert conflicts (`RETURNING` yields no row) the message is skipped
and none of its attachments are inserted. The remaining message columns
(sender, subject, bodies, …) do not participate in the conflict logic. -/

/-- A parsed attachment (columns that identify a stored copy). -/
structure ParsedAttachment where
  filename : String
  checksumSha256 : String
deriving DecidableEq, Repr

/-- A parsed message: its provider UID and attachments. -/
structure ParsedMessage where
  uid : String
  attachments : List ParsedAttachment
deriving DecidableEq, Repr

/-- Does the store already hold a message row for `(inboxId, uid)`? This is
the `ON CONFLICT` condition backed by the `UNIQUE(inbox_id, uid)` index. -/
def hasRow (db : Db) (inboxId uid : String) : Bool :=
  db.messages.any (fun r => r.inbox_id == inboxId && r.uid == uid)

/-- Attachment rows inserted together with a message row whose key is `base`. -/
def attRowsFor (inboxId : String) (base : Nat) (atts : List ParsedAttachment) :
    List AttachmentRow :=
  atts.enum.map (fun p =>
    { id := base + 1 + p.1, message_id := base, inbox_id := inboxId,
      filename := p.2.filename, checksum_sha256 := p.2.checksumSha256 })

/-- One iteration of the `storeMessages` loop: insert the message unless it
conflicts, and insert its attachments only when the message row was created. -/
def storeOne (inboxId : String) (m : ParsedMessage) (db : Db) : Db :=
  if hasRow db inboxId m.uid then db
  else
    { db with
        messages := db.messages ++ [{ id := db.nextId, inbox_id := inboxId, uid := m.uid }],
        attachments := db.attachments ++ attRowsFor inboxId db.nextId m.attachments,
        nextId := db.nextId + 1 + m.attachments.length }

/-- Model of `storeMessages(inboxId, parsedMessages)` over the store. -/
def storeMessages (inboxId : String) (msgs : List ParsedMessage) (db : Db) : Db :=
  match msgs with
  | [] => db
  | m :: rest => storeMessages inboxId rest (storeOne inboxId m db)

/-- Message rows stored for `(inboxId, uid)`. -/
def rowsFor (db : Db) (inboxId uid : String) : List MessageRow :=
  db.messages.filter (fun r => r.inbox_id == inboxId && r.uid == uid)

/-- Attachment rows referencing the message row with key `rid`. -/
def attsFor (db : Db) (rid : Nat) : List AttachmentRow :=
  db.attachments.filter (fun a => a.message_id == rid)

/-- Key-freshness invariant of the store: every stored key is below `nextId`. -/
def Wf (db : Db) : Prop :=
  (∀ r ∈ db.messages, r.id < db.nextId) ∧
  (∀ a ∈ db.attachments, a.message_id < db.nextId)

theorem hasRow_iff_rowsFor (db : Db) (i u : String) :
    hasRow db i u = true ↔ rowsFor db i u ≠ [] := by
  rw [hasRow, rowsFor, List.any_eq_true, Ne, List.filter_eq_nil_iff]
  push_neg
  constructor
  · rintro ⟨r, hr, hp⟩
    exact ⟨r, hr, hp⟩
  · rintro ⟨r, hr, hp⟩
    exact ⟨r, hr, hp⟩

theorem storeOne_conflict (i : String) (m : ParsedMessage) (db : Db)
    (h : hasRow db i m.uid = true) : storeOne i m db = db := by
  rw [storeOne, if_pos h]

theorem storeOne_hasRow_self (i : String) (m : ParsedMessage) (db : Db) :
    hasRow (storeOne i m db) i m.uid = true := by
  by_cases h : hasRow db i m.uid = true
  · rw [storeOne_conflict i m db h]
    exact h
  · rw [storeOne, if_neg h, hasRow]
    simp [List.any_append]

theorem storeOne_hasRow_mono (i u : String) (m : ParsedMessage) (db : Db)
    (h : hasRow db i u = true) : hasRow (storeOne i m db) i u = true := by
  rw [storeOne]
  split
  · exact h
  · rw [hasRow] at h ⊢
    simp only [List.any_append, Bool.or_eq_true]
    exact Or.inl h

theorem storeMessages_hasRow_mono (i u : String) :
    ∀ (P : List ParsedMessage) (db : Db), hasRow db i u = true →
      hasRow (storeMessages i P db) i u = true
  | [], _, h => h
  | m :: rest, db, h =>
    storeMessages_hasRow_mono i u rest (storeOne i m db) (storeOne_hasRow_mono i u m db h)

theorem storeMessages_hasRow_mem (i : String) :
    ∀ (P : List ParsedMessage) (db : Db) (m : ParsedMessage), m ∈ P →
      hasRow (storeMessages i P db) i m.uid = true
  | [], _, _, hm => absurd hm (by simp)
  | m0 :: rest, db, m, hm => by
    rcases List.mem_cons.1 hm with hm | hm
    · subst hm
      exact storeMessages_hasRow_mono i m.uid rest (storeOne i m db)
        (storeOne_hasRow_self i m db)
    · exact storeMessages_hasRow_mem i rest (storeOne i m0 db) m hm

theorem storeMessages_all_conflict (i : String) :
    ∀ (P : List ParsedMessage) (db : Db), (∀ m ∈ P, hasRow db i m.uid = true) →
      storeMessages i P db = db
  | [], _, _ => rfl
  | m :: rest, db, h => by
    rw [storeMessages, storeOne_conflict i m db (h m (by simp))]
    exact storeMessages_all_conflict i rest db (fun m' hm' => h m' (by simp [hm']))

theorem rowsFor_storeOne_fresh (i : String) (m : ParsedMessage) (db : Db)
    (h : hasRow db i m.uid = false) :
    rowsFor (storeOne i m db) i m.uid = [{ id := db.nextId, inbox_id := i, uid := m.uid }] := by
  have h0 : rowsFor db i m.uid = [] := by
    by_contra hc
    have hh := (hasRow_iff_rowsFor db i m.uid).2 hc
    rw [h] at hh
    cases hh
  rw [storeOne, if_neg (by simp [h]), rowsFor]
  simp only [List.filter_append]
  rw [rowsFor] at h0
  rw [h0]
  simp

theorem rowsFor_storeOne_other (i u : String) (m : ParsedMessage) (db : Db)
    (hne : u ≠ m.uid) : rowsFor (storeOne i m db) i u = rowsFor db i u := by
  rw [storeOne]
  split
  · rfl
  · rw [rowsFor, rowsFor]
    simp only [List.filter_append]
    have : m.uid ≠ u := fun hh => hne hh.symm
    simp [this]

theorem attsFor_storeOne_lt (i : String) (m : ParsedMessage) (db : Db) (rid : Nat)
    (hlt : rid < db.nextId) : attsFor (storeOne i m db) rid = attsFor db rid := by
  rw [storeOne]
  split
  · rfl
  · rw [attsFor, attsFor]
    simp only [List.filter_append]
    have hnil : (attRowsFor i db.nextId m.attachments).filter
        (fun a => a.message_id == rid) = [] := by
      refine List.filter_eq_nil_iff.2 ?_
      intro a ha
      obtain ⟨p, -, rfl⟩ := List.mem_map.1 ha
      simp
      omega
    rw [hnil, List.append_nil]

theorem attsFor_storeOne_new (i : String) (m : ParsedMessage) (db : Db)
    (h : hasRow db i m.uid = false)
    (hWfA : ∀ a ∈ db.attachments, a.message_id < db.nextId) :
    attsFor (storeOne i m db) db.nextId = attRowsFor i db.nextId m.attachments := by
  rw [storeOne, if_neg (by simp [h]), attsFor]
  simp only [List.filter_append]
  have h1 : db.attachments.filter (fun a => a.message_id == db.nextId) = [] := by
    refine List.filter_eq_nil_iff.2 ?_
    intro a ha
    have := hWfA a ha
    simp
    omega
  have h2 : (attRowsFor i db.nextId m.attachments).filter
      (fun a => a.message_id == db.nextId) = attRowsFor i db.nextId m.attachments := by
    refine List.filter_eq_self.2 ?_
    intro a ha
    obtain ⟨p, -, rfl⟩ := List.mem_map.1 ha
    simp
  rw [h1, h2, List.nil_append]

theorem attRowsFor_length (i : String) (base : Nat) (atts : List ParsedAttachment) :
    (attRowsFor i base atts).length = atts.length := by
  simp [attRowsFor]

theorem storeOne_nextId_le (i : String) (m : ParsedMessage) (db : Db) :
    db.nextId ≤ (storeOne i m db).nextId := by
  rw [storeOne]
  split
  · exact Nat.le_refl _
  · simp
    omega

theorem storeOne_nextId_lt_fresh (i : String) (m : ParsedMessage) (db : Db)
    (h : hasRow db i m.uid = false) : db.nextId < (storeOne i m db).nextId := by
  rw [storeOne, if_neg (by simp [h])]
  simp
  omega

theorem Wf_storeOne (i : String) (m : ParsedMessage) (db : Db) (h : Wf db) :
    Wf (storeOne i m db) := by
  rw [storeOne]
  split
  · exact h
  · constructor
    · intro r hr
      rcases List.mem_append.1 hr with hr | hr
      · have := h.1 r hr
        simp
        omega
      · simp at hr
        subst hr
        simp
        omega
    · intro a ha
      rcases List.mem_append.1 ha with ha | ha
      · have := h.2 a ha
        simp
        omega
      · obtain ⟨p, -, rfl⟩ := List.mem_map.1 ha
        simp
        omega

theorem storeMessages_preserve (i u : String) (rid : Nat) :
    ∀ (P : List ParsedMessage) (db : Db), rid < db.nextId → (∀ m ∈ P, m.uid ≠ u) →
      rowsFor (storeMessages i P db) i u = rowsFor db i u ∧
      attsFor (storeMessages i P db) rid = attsFor db rid
  | [], _, _, _ => ⟨rfl, rfl⟩
  | m :: rest, db, hlt, hu => by
    have hne : u ≠ m.uid := fun hh => hu m (by simp) hh.symm
    have hlt' : rid < (storeOne i m db).nextId :=
      Nat.lt_of_lt_of_le hlt (storeOne_nextId_le i m db)
    have ih := storeMessages_preserve i u rid rest (storeOne i m db) hlt'
      (fun m' h' => hu m' (List.mem_cons_of_mem _ h'))
    rw [storeMessages]
    exact ⟨ih.1.trans (rowsFor_storeOne_other i u m db hne),
           ih.2.trans (attsFor_storeOne_lt i m db rid hlt)⟩

theorem store_spec (i : String) :
    ∀ (P : List ParsedMessage) (db : Db), Wf db → (P.map (fun m => m.uid)).Nodup →
      (∀ m ∈ P, rowsFor db i m.uid = []) →
      ∀ m ∈ P, ∃ r, rowsFor (storeMessages i P db) i m.uid = [r] ∧
        (attsFor (storeMessages i P db) r.id).length = m.attachments.length
  | [], _, _, _, _ => by simp
  | m0 :: rest, db, hWf, hnd, hfresh => by
    intro m hm
    have hfresh0 : hasRow db i m0.uid = false := by
      cases hcase : hasRow db i m0.uid with
      | false => rfl
      | true =>
        exact absurd (hfresh m0 (by simp)) ((hasRow_iff_rowsFor db i m0.uid).1 hcase)
    obtain ⟨hnotmem, hndrest⟩ := List.nodup_cons.1 hnd
    rcases List.mem_cons.1 hm with hmeq | hmem
    · subst hmeq
      have hrows1 := rowsFor_storeOne_fresh i m db hfresh0
      have hatts1 := attsFor_storeOne_new i m db hfresh0 hWf.2
      have hlt := storeOne_nextId_lt_fresh i m db hfresh0
      have hpres := storeMessages_preserve i m.uid db.nextId rest (storeOne i m db) hlt
        (fun m' h' hh => hnotmem (List.mem_map.2 ⟨m', h', hh⟩))
      refine ⟨{ id := db.nextId, inbox_id := i, uid := m.uid }, ?_, ?_⟩
      · rw [storeMessages, hpres.1, hrows1]
      · rw [storeMessages]
        show (attsFor (storeMessages i rest (storeOne i m db)) db.nextId).length = _
        rw [hpres.2, hatts1, attRowsFor_length]
    · rw [storeMessages]
      refine store_spec i rest (storeOne i m0 db) (Wf_storeOne i m0 db hWf) hndrest ?_ m hmem
      intro m' h'
      have hne : m'.uid ≠ m0.uid := fun hh => hnotmem (List.mem_map.2 ⟨m', h', hh⟩)
      rw [rowsFor_storeOne_other i m'.uid m0 db hne]
      exact hfresh m' (List.mem_cons_of_mem _ h')

/-- C4: ingesting the same parsed message set for the same inbox twice is
idempotent — the second run's conflicting inserts are no-ops, inserting no
attachments either — and after ingestion each `(inbox, uid)` has exactly one
message row carrying exactly one copy of each of its attachments. -/
theorem C4_idempotent_ingestion (i : String) (P : List ParsedMessage) (db0 : Db)
    (hWf : Wf db0) (hnd : (P.map (fun m => m.uid)).Nodup)
    (hfresh : ∀ m ∈ P, rowsFor db0 i m.uid = []) :
    storeMessages i P (storeMessages i P db0) = storeMessages i P db0 ∧
    ∀ m ∈ P, ∃ r, rowsFor (storeMessages i P db0) i m.uid = [r] ∧
      (attsFor (storeMessages i P db0) r.id).length = m.attachments.length := by
  constructor
  · exact storeMessages_all_conflict i P _
      (fun m hm => storeMessages_hasRow_mem i P db0 m hm)
  · exact store_spec i P db0 hWf hnd hfresh

/-- Store with no messages or attachments, used to exercise ingestion. -/
def ingestionStartDb : Db :=
  { inboxes := [sampleInboxActive], tokens := [sampleTokenActive],
    messages := [], attachments := [], nextId := 0 }

/-- Sample parsed message with one attachment. -/
def sampleParsed : ParsedMessage :=
  { uid := "u9", attachments := [{ filename := "f.txt", checksumSha256 := "c0" }] }

/-- Witness for `C4_idempotent_ingestion` on an explicit store. -/
theorem C4_idempotent_ingestion_witness :
    storeMessages "i1" [sampleParsed] (storeMessages "i1" [sampleParsed] ingestionStartDb) =
      storeMessages "i1" [sampleParsed] ingestionStartDb ∧
    (rowsFor (storeMessages "i1" [sampleParsed] ingestionStartDb) "i1" "u9").length = 1 := by
  have h := C4_idempotent_ingestion "i1" [sampleParsed] ingestionStartDb
    (by constructor <;> simp [ingestionStartDb]) (by simp) (by simp [rowsFor, ingestionStartDb])
  refine ⟨h.1, ?_⟩
  obtain ⟨r, hr, -⟩ := h.2 sampleParsed (by simp)
  have : sampleParsed.uid = "u9" := rfl
  rw [this] at hr
  rw [hr]
  rfl

/-! ## Mail fetch worker (src/internal/mail/worker.js, `fetchMailWorker`)

The worker takes the provider's UIDL listing, keeps the entries after
`sinceUid` (all of them when `sinceUid` is absent or not found), truncates to
the fetch limit, retrieves each entry with per-message failures skipped, and
after storing advances `last_seen_uid` to
`rawMessages[rawMessages.length - 1].uid`. Parsing and storage do not touch
the `inboxes` table, so the cursor update is modelled directly. -/

/-- One UIDL listing entry: message number and provider UID. -/
structure UidlEntry where
  num : Nat
  uid : String
deriving DecidableEq, Repr

/-- JavaScript `limit || maxFetch` for an optional numeric limit (0 is falsy). -/
def jsOrDefault (limit : Option Nat) (d : Nat) : Nat :=
  match limit with
  | some l => if l == 0 then d else l
  | none => d

/-- Entries strictly after `sinceUid` in UIDL order; all entries when
`sinceUid` is absent or not found (first fetch or UID reset). -/
def newEntriesAfter (uidList : List UidlEntry) (sinceUid : Option String) :
    List UidlEntry :=
  match sinceUid with
  | none => uidList
  | some s =>
    match uidList.findIdx? (fun e => e.uid == s) with
    | some i => uidList.drop (i + 1)
    | none => uidList

/-- The slice of UIDL entries the worker attempts to retrieve
(`newEntries.slice(0, fetchLimit)`). -/
def fetchSlice (uidList : List UidlEntry) (sinceUid : Option String)
    (limit : Option Nat) (maxFetch : Nat) : List UidlEntry :=
  (newEntriesAfter uidList sinceUid).take (min (jsOrDefault limit maxFetch) maxFetch)

/-- The entries actually retrieved: per-entry `RETR` failures are logged and
skipped, preserving UIDL order. -/
def retrievedRaws (slice : List UidlEntry) (retrOk : UidlEntry → Bool) :
    List UidlEntry :=
  slice.filter retrOk

/-- The cursor value written after the fetch: the UID of the last raw message
actually retrieved, or `none` when nothing was fetched. -/
def workerLastSeen (uidList : List UidlEntry) (sinceUid : Option String)
    (limit : Option Nat) (maxFetch : Nat) (retrOk : UidlEntry → Bool) :
    Option String :=
  let raws := retrievedRaws (fetchSlice uidList sinceUid limit maxFetch) retrOk
  if raws.isEmpty then none else raws.getLast?.map (fun e => e.uid)

/-- Model of `updateLastSeenUid(id, lastSeenUid)` applied when a cursor value
was produced. -/
def applyLastSeen (db : Db) (inboxId : String) (u : Option String) : Db :=
  match u with
  | none => db
  | some uid =>
    { db with inboxes := db.inboxes.map (fun i =>
        if i.id == inboxId then { i with last_seen_uid := some uid } else i) }

/-- C5 counterexample: with UIDL entries `u1, u2` and the `RETR` of entry 2
failing, the fetched slice ends at `u2` but the cursor is advanced to `u1`,
the last entry actually retrieved — the two formulations the claim equates
differ. -/
theorem C5_last_slice_element_differs :
    workerLastSeen [{ num := 1, uid := "u1" }, { num := 2, uid := "u2" }]
        none none 100 (fun e => e.num != 2) = some "u1" ∧
    (fetchSlice [{ num := 1, uid := "u1" }, { num := 2, uid := "u2" }]
        none none 100).getLast?.map (fun e => e.uid) = some "u2" ∧
    some "u1" ≠ some "u2" := by
  refine ⟨by decide, by decide, by decide⟩

/-- C5, amended: whenever at least one raw message was retrieved, the cursor
is advanced to the UID of the last entry actually retrieved in UIDL order
(which is the last element of the slice only when that entry's `RETR`
succeeded). -/
theorem C5_cursor_last_retrieved (uidList : List UidlEntry) (sinceUid : Option String)
    (limit : Option Nat) (maxFetch : Nat) (retrOk : UidlEntry → Bool)
    (db : Db) (inboxId : String) (last : UidlEntry)
    (hlast : (retrievedRaws (fetchSlice uidList sinceUid limit maxFetch) retrOk).getLast? =
      some last) :
    workerLastSeen uidList sinceUid limit maxFetch retrOk = some last.uid ∧
    ∀ i ∈ (applyLastSeen db inboxId
        (workerLastSeen uidList sinceUid limit maxFetch retrOk)).inboxes,
      i.id = inboxId → i.last_seen_uid = some last.uid := by
  have hne : (retrievedRaws (fetchSlice uidList sinceUid limit maxFetch) retrOk).isEmpty
      = false := by
    cases hr : retrievedRaws (fetchSlice uidList sinceUid limit maxFetch) retrOk with
    | nil => rw [hr] at hlast; cases hlast
    | cons a l => rfl
  have h1 : workerLastSeen uidList sinceUid limit maxFetch retrOk = some last.uid := by
    rw [workerLastSeen]
    simp only [hne, Bool.false_eq_true, if_false, hlast]
    rfl
  refine ⟨h1, ?_⟩
  rw [h1]
  intro i hi hid
  rw [applyLastSeen] at hi
  simp only at hi
  obtain ⟨i0, -, hmap⟩ := List.mem_map.1 hi
  by_cases hc : (i0.id == inboxId) = true
  · rw [if_pos hc] at hmap
    rw [← hmap]
  · rw [if_neg hc] at hmap
    subst hmap
    simp only [beq_iff_eq] at hc
    exact absurd hid hc

/-- Witness for `C5_cursor_last_retrieved` on the explicit two-entry fetch. -/
theorem C5_cursor_last_retrieved_witness :
    workerLastSeen [{ num := 1, uid := "u1" }, { num := 2, uid := "u2" }]
      none none 100 (fun e => e.num != 2) = some "u1" ∧
    (applyLastSeen sampleDbFull "i1" (some "u1")).inboxes =
      [{ sampleInboxActive with last_seen_uid := some "u1" }] := by
  have h := C5_cursor_last_retrieved
    [{ num := 1, uid := "u1" }, { num := 2, uid := "u2" }] none none 100
    (fun e => e.num != 2) sampleDbFull "i1" { num := 1, uid := "u1" } (by decide)
  exact ⟨h.1, by decide⟩

/-! ## POP3 client (src/unnamed/part_009, `Pop3Client`)

`_processBuffer` handles a multiline response by locating the
`CRLF . CRLF` terminator, splitting the status line from the body, and
un-stuffing dot-escaped lines with `body.replace(/\r\n\.\./g, '\r\n.')`.
`_sendCommand` arms a timer whose expiry clears the pending handlers and
rejects with `Command timeout: <verb>`. -/

/-- Index of the first occurrence of `pat` (JavaScript `indexOf`), `none` when
absent. -/
def findSub (pat : List Char) : List Char → Option Nat
  | [] => if pat.isEmpty then some 0 else none
  | c :: rest =>
    if listPrefixOf pat (c :: rest) then some 0
    else (findSub pat rest).map (fun n => n + 1)

/-- Clamp a JavaScript slice index (negative counts from the end). -/
def jsClampIdx (len : Nat) (n : Int) : Nat :=
  if n < 0 then (len + n).toNat else min n.toNat len

/-- JavaScript `String.prototype.slice(st, en)` on character lists. -/
def jsSlice (s : List Char) (st en : Int) : List Char :=
  (s.take (jsClampIdx s.length en)).drop (jsClampIdx s.length st)

/-- JavaScript `String.prototype.slice(st)`. -/
def jsSliceFrom (s : List Char) (st : Int) : List Char :=
  jsSlice s st s.length

/-- The global replacement `/\r\n\.\./g → \r\n.` — note it only fires on
occurrences *preceded by CRLF inside the body string*. -/
def unstuff : List Char → List Char
  | '\r' :: '\n' :: '.' :: '.' :: rest => '\r' :: '\n' :: '.' :: unstuff rest
  | ch :: rest => ch :: unstuff rest
  | [] => []

/-- Multiline branch of `_processBuffer`: returns
`(status line, un-stuffed body, remaining buffer)` once the terminator is in
the buffer, `none` while it is not. -/
def processMultiline (buffer : List Char) : Option (List Char × List Char × List Char) :=
  match findSub ['\r', '\n', '.', '\r', '\n'] buffer with
  | none => none
  | some endIdx =>
    let data := buffer.take endIdx
    let rest := buffer.drop (endIdx + 5)
    let firstNewline : Int :=
      match findSub ['\r', '\n'] data with
      | some i => (i : Int)
      | none => -1
    let statusLine := jsSlice data 0 firstNewline
    let body := jsSliceFrom data (firstNewline + 2)
    some (statusLine, unstuff body, rest)

/-- C6: the un-stuffing regex requires a preceding CRLF, but the body string
has its leading CRLF stripped, so a dot-stuffed *first* body line `..x` is
surfaced still stuffed (the terminator itself is correctly excluded). A later
stuffed line is un-stuffed as the claim states. -/
theorem C6_first_body_line_stays_stuffed :
    processMultiline ("+OK\r\n..x\r\n.\r\n".toList) =
      some ("+OK".toList, "..x".toList, []) ∧
    "..x".toList ≠ ".x".toList ∧
    processMultiline ("+OK\r\na\r\n..x\r\n.\r\n".toList) =
      some ("+OK".toList, "a\r\n.x".toList, []) := by
  refine ⟨by decide, by decide, by decide⟩

def POP3_STATE_DISCONNECTED : String := "disconnected"

/-- Observable client state for `_sendCommand`: whether the socket object is
still alive, the pending promise handlers, the armed command timer, the bytes
written to the socket, and the protocol state string. -/
structure ClientSt where
  socketAlive : Bool
  currentResolve : Bool
  currentReject : Bool
  commandTimerSet : Bool
  writes : List String
  state : String
deriving DecidableEq, Repr

/-- Start of `_sendCommand(command)`: reject immediately when disconnected,
otherwise install the handlers, arm the timer and write `command CRLF`. -/
def sendCommandStart (cmd : String) (st : ClientSt) : ClientSt × Option String :=
  if st.state == POP3_STATE_DISCONNECTED then
    (st, some "Not connected to POP3 server")
  else
    ({ st with currentResolve := true, currentReject := true, commandTimerSet := true,
               writes := st.writes ++ [cmd ++ "\r\n"] }, none)

/-- The command-timer expiry handler: it nulls `_currentReject` and
`_currentResolve` and rejects with `Command timeout: <verb>`; it does not
touch the socket and writes nothing further. -/
def onCommandTimeout (cmd : String) (st : ClientSt) : ClientSt × String :=
  ({ st with currentReject := false, currentResolve := false },
   "Command timeout: " ++ firstWord cmd)

/-- C7 counterexample: after a command is sent on a live connection, timer
expiry surfaces the timeout error naming the command but leaves the socket
alive — the client does not destroy it (the pool's error path does). -/
theorem C7_timeout_leaves_socket_alive :
    ((onCommandTimeout "RETR 5"
        (sendCommandStart "RETR 5"
          { socketAlive := true, currentResolve := false, currentReject := false,
            commandTimerSet := false, writes := [], state := "transaction" }).1).1).socketAlive
      = true ∧
    ((onCommandTimeout "RETR 5"
        (sendCommandStart "RETR 5"
          { socketAlive := true, currentResolve := false, currentReject := false,
            commandTimerSet := false, writes := [], state := "transaction" }).1).2)
      = "Command timeout: RETR" := by
  refine ⟨by decide, by decide⟩

/-- C7, amended: on timer expiry the client surfaces a timeout error naming
the command and clears the pending handlers, performs no further socket
write (no retry at this layer), and leaves the socket undisturbed; the
socket is destroyed by the pool's error path, not by the client's timer. -/
theorem C7_command_timeout (cmd : String) (st : ClientSt) (h : st.socketAlive = true) :
    (onCommandTimeout cmd st).1.socketAlive = true ∧
    (onCommandTimeout cmd st).1.currentResolve = false ∧
    (onCommandTimeout cmd st).1.currentReject = false ∧
    (onCommandTimeout cmd st).2 = "Command timeout: " ++ firstWord cmd ∧
    (onCommandTimeout cmd st).1.writes = st.writes := by
  exact ⟨h, rfl, rfl, rfl, rfl⟩

/-- Witness for `C7_command_timeout` on an explicit command and state. -/
theorem C7_command_timeout_witness :
    (onCommandTimeout "UIDL"
      { socketAlive := true, currentResolve := true, currentReject := true,
        commandTimerSet := true, writes := ["UIDL\r\n"], state := "transaction" }).1.socketAlive
      = true ∧
    (onCommandTimeout "UIDL"
      { socketAlive := true, currentResolve := true, currentReject := true,
        commandTimerSet := true, writes := ["UIDL\r\n"], state := "transaction" }).2
      = "Command timeout: " ++ firstWord "UIDL" := by
  have h := C7_command_timeout "UIDL"
    { socketAlive := true, currentResolve := true, currentReject := true,
      commandTimerSet := true, writes := ["UIDL\r\n"], state := "transaction" } (by decide)
  exact ⟨h.1, h.2.2.2.1⟩

/-! ## POP3 connection pool (src/internal/pop3/pool.js, `Pop3Pool`)

`execute` first consults the per-host throttle map, then acquires a
concurrency slot, and runs up to `maxRetries` attempts, each on a fresh
client. A single `execute` call is modelled as a deterministic function of
the pool state and of the outcome each fresh connection attempt would
produce; the events it emits (connection opened, QUIT, backoff wait,
throttle set, slot acquired/released) form its trace. -/

/-- Outcome of one connect-authenticate-operate attempt. -/
inductive Outcome (α : Type)
  | ok (a : α)
  | err (msg : String)

/-- Observable events of an `execute` call. -/
inductive PoolEvent
  | connOpen
  | quitCmd
  | waitMs (d : Nat)
  | throttleSet (host : String) (untilMs : Nat)
  | slotAcquired
  | slotReleased
deriving DecidableEq, Repr

/-- Result of an `execute` call; `blocked` stands for a call still parked in
the waiter queue. -/
inductive ExecResult (α : Type)
  | returned (a : α)
  | thrown (msg : String)
  | blocked

/-- Provider-throttle signals scanned for in error messages. -/
def throttleSignal (msg : String) : Bool :=
  jsIncludes msg "too many connections" || jsIncludes msg "login rate" ||
    jsIncludes msg "try again later"

/-- The error thrown when all retries are exhausted (`lastError?.message`
prints as `undefined` when no attempt ran). -/
def exhaustedMsg (mr : Nat) (lastErr : Option String) : String :=
  "POP3 operation failed after " ++ toString mr ++ " attempts: " ++ lastErr.getD "undefined"

/-- Pool configuration (from `config.pop3`). -/
structure PoolCfg where
  maxConcurrent : Nat
  maxRetries : Nat
  retryDelay : Nat

/-- Mutable pool state: active connection count, FIFO waiter queue, and the
host → throttled-until map. -/
structure PoolSt where
  active : Nat
  queue : List Nat
  throttles : List (String × Nat)
deriving DecidableEq, Repr

/-- Lookup in the throttle map. -/
def getThrottle (ths : List (String × Nat)) (host : String) : Option Nat :=
  (ths.find? (fun p => p.1 == host)).map (fun p => p.2)

/-- `_isThrottled(host)`: `true` while the entry lies in the future; an
expired (or absent) entry is deleted on the way to `false`. -/
def isThrottledCheck (now : Nat) (host : String) (ths : List (String × Nat)) :
    Bool × List (String × Nat) :=
  match getThrottle ths host with
  | some u => if now < u then (true, ths) else (false, ths.filter (fun p => p.1 != host))
  | none => (false, ths.filter (fun p => p.1 != host))

/-- `_throttleProvider(host)`: map-set semantics. -/
def setThrottle (ths : List (String × Nat)) (host : String) (untilMs : Nat) :
    List (String × Nat) :=
  (host, untilMs) :: ths.filter (fun p => p.1 != host)

/-- `_acquireSlot` for one caller `wid`: take a slot when below the limit,
otherwise join the back of the waiter queue. -/
def acquireSlot (cfg : PoolCfg) (wid : Nat) (s : PoolSt) : PoolSt × Bool :=
  if s.active < cfg.maxConcurrent then ({ s with active := s.active + 1 }, true)
  else ({ s with queue := s.queue ++ [wid] }, false)

/-- The release function handed out by `_acquireSlot`: decrement `active`,
then `_drainQueue` shifts the oldest waiter (who increments `active` again)
when below the limit. Returns the woken waiter, if any. -/
def releaseSlot (cfg : PoolCfg) (s : PoolSt) : PoolSt × Option Nat :=
  let a := s.active - 1
  match s.queue with
  | [] => ({ s with active := a, queue := [] }, none)
  | w :: rest =>
    if a < cfg.maxConcurrent then ({ s with active := a + 1, queue := rest }, some w)
    else ({ s with active := a, queue := w :: rest }, none)

/-- The retry loop of `execute`, from attempt number `attempt` with `fuel`
attempts left (`attempt + fuel = maxRetries + 1` at every call). Per
attempt: a fresh connection; on success QUIT, release and return; on a
throttle-signal error set the 30 s host throttle and abandon the remaining
retries; otherwise wait `retryDelay * 2^(attempt-1)` before the next attempt.
When the loop ends, release the slot and throw the exhaustion error. -/
def runAttempts (cfg : PoolCfg) (host : String) (now : Nat) (outs : Nat → Outcome α) :
    Nat → Nat → Option String → List (String × Nat) →
      List PoolEvent × Except String α × List (String × Nat)
  | 0, _, lastErr, ths =>
    ([.slotReleased], .error (exhaustedMsg cfg.maxRetries lastErr), ths)
  | fuel + 1, attempt, _, ths =>
    match outs attempt with
    | .ok a => ([.connOpen, .quitCmd, .slotReleased], .ok a, ths)
    | .err m =>
      if throttleSignal m then
        ([.connOpen, .throttleSet host (now + 30000), .slotReleased],
         .error (exhaustedMsg cfg.maxRetries (some m)),
         setThrottle ths host (now + 30000))
      else if attempt < cfg.maxRetries then
        let r := runAttempts cfg host now outs fuel (attempt + 1) (some m) ths
        (.connOpen :: .waitMs (cfg.retryDelay * 2 ^ (attempt - 1)) :: r.1, r.2.1, r.2.2)
      else
        let r := runAttempts cfg host now outs fuel (attempt + 1) (some m) ths
        (.connOpen :: r.1, r.2.1, r.2.2)

/-- One `execute(credentials, operation)` call: throttle fast-fail before slot
acquisition, then the retry loop; the slot effects are applied to the pool
state around the loop. -/
def execute (cfg : PoolCfg) (st : PoolSt) (host : String) (now : Nat) (wid : Nat)
    (outs : Nat → Outcome α) : ExecResult α × PoolSt × List PoolEvent :=
  let tc := isThrottledCheck now host st.throttles
  if tc.1 then
    (.thrown ("Provider " ++ host ++ " is temporarily throttled, try again later"),
     { st with throttles := tc.2 }, [])
  else if st.active < cfg.maxConcurrent then
    let st1 : PoolSt := { st with active := st.active + 1, throttles := tc.2 }
    let r := runAttempts cfg host now outs cfg.maxRetries 1 none st1.throttles
    let st2 := (releaseSlot cfg { st1 with throttles := r.2.2 }).1
    (match r.2.1 with
     | .ok a => .returned a
     | .error m => .thrown m, st2, .slotAcquired :: r.1)
  else
    (.blocked, { st with queue := st.queue ++ [wid], throttles := tc.2 }, [])

/-- Event predicate: a fresh connection was opened. -/
def isConnOpen : PoolEvent → Bool
  | .connOpen => true
  | _ => false

/-- Event predicate: the slot was released. -/
def isRelease : PoolEvent → Bool
  | .slotReleased => true
  | _ => false

/-- Event predicate: the slot was acquired. -/
def isAcquire : PoolEvent → Bool
  | .slotAcquired => true
  | _ => false

/-- The backoff waits of a trace, in order. -/
def waitsOf (evs : List PoolEvent) : List Nat :=
  evs.filterMap (fun e => match e with | .waitMs d => some d | _ => none)

/-- Loop-exit equation: no fuel left means release and throw. -/
theorem runAttempts_zero (cfg : PoolCfg) (host : String) (now : Nat)
    (outs : Nat → Outcome α) (attempt : Nat) (lastErr : Option String)
    (ths : List (String × Nat)) :
    runAttempts cfg host now outs 0 attempt lastErr ths =
      ([.slotReleased], .error (exhaustedMsg cfg.maxRetries lastErr), ths) := by
  rw [runAttempts]

/-- Successful attempt: fresh connection, the operation's result, QUIT, and
the slot release. -/
theorem runAttempts_ok (cfg : PoolCfg) (host : String) (now : Nat)
    (outs : Nat → Outcome α) (fuel attempt : Nat) (lastErr : Option String)
    (ths : List (String × Nat)) (a : α) (h : outs attempt = .ok a) :
    runAttempts cfg host now outs (fuel + 1) attempt lastErr ths =
      ([.connOpen, .quitCmd, .slotReleased], .ok a, ths) := by
  rw [runAttempts, h]

/-- Throttle-signal attempt: the host throttle is set for 30 s and the
remaining retries are abandoned. -/
theorem runAttempts_signal (cfg : PoolCfg) (host : String) (now : Nat)
    (outs : Nat → Outcome α) (fuel attempt : Nat) (lastErr : Option String)
    (ths : List (String × Nat)) (m : String) (h : outs attempt = .err m)
    (hs : throttleSignal m = true) :
    runAttempts cfg host now outs (fuel + 1) attempt lastErr ths =
      ([.connOpen, .throttleSet host (now + 30000), .slotReleased],
       .error (exhaustedMsg cfg.maxRetries (some m)),
       setThrottle ths host (now + 30000)) := by
  rw [runAttempts, h]
  simp [hs]

/-- Ordinary failed attempt before the last: wait `retryDelay * 2^(attempt-1)`
and continue. -/
theorem runAttempts_retry (cfg : PoolCfg) (host : String) (now : Nat)
    (outs : Nat → Outcome α) (fuel attempt : Nat) (lastErr : Option String)
    (ths : List (String × Nat)) (m : String) (h : outs attempt = .err m)
    (hs : throttleSignal m = false) (hlt : attempt < cfg.maxRetries) :
    runAttempts cfg host now outs (fuel + 1) attempt lastErr ths =
      (.connOpen :: .waitMs (cfg.retryDelay * 2 ^ (attempt - 1)) ::
        (runAttempts cfg host now outs fuel (attempt + 1) (some m) ths).1,
       (runAttempts cfg host now outs fuel (attempt + 1) (some m) ths).2.1,
       (runAttempts cfg host now outs fuel (attempt + 1) (some m) ths).2.2) := by
  rw [runAttempts, h]
  simp [hs, hlt]

/-- Ordinary failed attempt at the retry limit: no wait, the loop ends. -/
theorem runAttempts_last (cfg : PoolCfg) (host : String) (now : Nat)
    (outs : Nat → Outcome α) (fuel attempt : Nat) (lastErr : Option String)
    (ths : List (String × Nat)) (m : String) (h : outs attempt = .err m)
    (hs : throttleSignal m = false) (hge : ¬ attempt < cfg.maxRetries) :
    runAttempts cfg host now outs (fuel + 1) attempt lastErr ths =
      (.connOpen :: (runAttempts cfg host now outs fuel (attempt + 1) (some m) ths).1,
       (runAttempts cfg host now outs fuel (attempt + 1) (some m) ths).2.1,
       (runAttempts cfg host now outs fuel (attempt + 1) (some m) ths).2.2) := by
  rw [runAttempts, h]
  simp [hs, hge]

theorem runAttempts_connOpen_le (cfg : PoolCfg) (host : String) (now : Nat)
    (outs : Nat → Outcome α) :
    ∀ (fuel attempt : Nat) (lastErr : Option String) (ths : List (String × Nat)),
      (runAttempts cfg host now outs fuel attempt lastErr ths).1.countP isConnOpen ≤ fuel
  | 0, attempt, lastErr, ths => by
    rw [runAttempts_zero]
    simp [isRelease, isConnOpen]
  | fuel + 1, attempt, lastErr, ths => by
    have ih := runAttempts_connOpen_le cfg host now outs fuel (attempt + 1)
    cases houts : outs attempt with
    | ok a =>
      rw [runAttempts_ok cfg host now outs fuel attempt lastErr ths a houts]
      simp [isConnOpen]
    | err m =>
      cases hs : throttleSignal m with
      | true =>
        rw [runAttempts_signal cfg host now outs fuel attempt lastErr ths m houts hs]
        simp [isConnOpen]
      | false =>
        by_cases hlt : attempt < cfg.maxRetries
        · rw [runAttempts_retry cfg host now outs fuel attempt lastErr ths m houts hs hlt]
          have := ih (some m) ths
          simp [List.countP_cons, isConnOpen]
          omega
        · rw [runAttempts_last cfg host now outs fuel attempt lastErr ths m houts hs hlt]
          have := ih (some m) ths
          simp [List.countP_cons, isConnOpen]
          omega

theorem runAttempts_connOpen_pos (cfg : PoolCfg) (host : String) (now : Nat)
    (outs : Nat → Outcome α) (fuel attempt : Nat) (lastErr : Option String)
    (ths : List (String × Nat)) :
    1 ≤ (runAttempts cfg host now outs (fuel + 1) attempt lastErr ths).1.countP isConnOpen := by
  cases houts : outs attempt with
  | ok a =>
    rw [runAttempts_ok cfg host now outs fuel attempt lastErr ths a houts]
    simp [isConnOpen]
  | err m =>
    cases hs : throttleSignal m with
    | true =>
      rw [runAttempts_signal cfg host now outs fuel attempt lastErr ths m houts hs]
      simp [isConnOpen]
    | false =>
      by_cases hlt : attempt < cfg.maxRetries
      · rw [runAttempts_retry cfg host now outs fuel attempt lastErr ths m houts hs hlt]
        simp [List.countP_cons, isConnOpen]
      · rw [runAttempts_last cfg host now outs fuel attempt lastErr ths m houts hs hlt]
        simp [List.countP_cons, isConnOpen]

theorem runAttempts_release_once (cfg : PoolCfg) (host : String) (now : Nat)
    (outs : Nat → Outcome α) :
    ∀ (fuel attempt : Nat) (lastErr : Option String) (ths : List (String × Nat)),
      (runAttempts cfg host now outs fuel attempt lastErr ths).1.countP isRelease = 1
  | 0, attempt, lastErr, ths => by
    rw [runAttempts_zero]
    simp [isRelease]
  | fuel + 1, attempt, lastErr, ths => by
    have ih := runAttempts_release_once cfg host now outs fuel (attempt + 1)
    cases houts : outs attempt with
    | ok a =>
      rw [runAttempts_ok cfg host now outs fuel attempt lastErr ths a houts]
      simp [isRelease]
    | err m =>
      cases hs : throttleSignal m with
      | true =>
        rw [runAttempts_signal cfg host now outs fuel attempt lastErr ths m houts hs]
        simp [isRelease]
      | false =>
        by_cases hlt : attempt < cfg.maxRetries
        · rw [runAttempts_retry cfg host now outs fuel attempt lastErr ths m houts hs hlt]
          have := ih (some m) ths
          simp [List.countP_cons, isRelease]
          omega
        · rw [runAttempts_last cfg host now outs fuel attempt lastErr ths m houts hs hlt]
          have := ih (some m) ths
          simp [List.countP_cons, isRelease]
          omega

theorem waitsOf_connOpen_cons (l : List PoolEvent) :
    waitsOf (.connOpen :: l) = waitsOf l := by
  simp [waitsOf]

theorem waitsOf_waitMs_cons (d : Nat) (l : List PoolEvent) :
    waitsOf (.waitMs d :: l) = d :: waitsOf l := by
  simp [waitsOf]

theorem countP_connOpen_cons (l : List PoolEvent) :
    (PoolEvent.connOpen :: l).countP isConnOpen = l.countP isConnOpen + 1 := by
  simp [List.countP_cons, isConnOpen]

theorem countP_waitMs_cons (d : Nat) (l : List PoolEvent) :
    (PoolEvent.waitMs d :: l).countP isConnOpen = l.countP isConnOpen := by
  simp [List.countP_cons, isConnOpen]

/-- The backoff waits of a run are exactly
`retryDelay * 2^(attempt-1), retryDelay * 2^attempt, …`, one per attempt that
was followed by another attempt. -/
theorem runAttempts_waits (cfg : PoolCfg) (host : String) (now : Nat)
    (outs : Nat → Outcome α) :
    ∀ (fuel attempt : Nat) (lastErr : Option String) (ths : List (String × Nat)),
      attempt + fuel = cfg.maxRetries + 1 → 1 ≤ attempt →
      waitsOf (runAttempts cfg host now outs fuel attempt lastErr ths).1 =
        (List.range
          ((runAttempts cfg host now outs fuel attempt lastErr ths).1.countP isConnOpen
            - 1)).map (fun k => cfg.retryDelay * 2 ^ (attempt - 1 + k))
  | 0, attempt, lastErr, ths => fun _ _ => by
    rw [runAttempts_zero]
    simp [waitsOf, isConnOpen]
  | fuel + 1, attempt, lastErr, ths => fun hinv hat => by
    cases houts : outs attempt with
    | ok a =>
      rw [runAttempts_ok cfg host now outs fuel attempt lastErr ths a houts]
      simp [waitsOf, isConnOpen]
    | err m =>
      cases hs : throttleSignal m with
      | true =>
        rw [runAttempts_signal cfg host now outs fuel attempt lastErr ths m houts hs]
        simp [waitsOf, isConnOpen]
      | false =>
        by_cases hlt : attempt < cfg.maxRetries
        · obtain ⟨f, rfl⟩ : ∃ f, fuel = f + 1 := ⟨fuel - 1, by omega⟩
          have hpos := runAttempts_connOpen_pos cfg host now outs f (attempt + 1)
            (some m) ths
          have ih := runAttempts_waits cfg host now outs (f + 1) (attempt + 1) (some m) ths
            (by omega) (by omega)
          rw [runAttempts_retry cfg host now outs (f + 1) attempt lastErr ths m houts hs hlt]
          rw [waitsOf_connOpen_cons, waitsOf_waitMs_cons, countP_connOpen_cons,
            countP_waitMs_cons, ih]
          have hn1 : (runAttempts cfg host now outs (f + 1) (attempt + 1) (some m) ths).1.countP
              isConnOpen + 1 - 1 =
              ((runAttempts cfg host now outs (f + 1) (attempt + 1) (some m) ths).1.countP
                isConnOpen - 1) + 1 := by
            omega
          rw [hn1, List.range_succ_eq_map, List.map_cons, List.map_map]
          refine congrArg₂ List.cons ?_ ?_
          · simp
          · refine List.map_congr_left ?_
            intro k _
            simp only [Function.comp_apply]
            have hexp : attempt - 1 + (k + 1) = attempt + 1 - 1 + k := by omega
            rw [hexp]
        · have hfz : fuel = 0 := by omega
          subst hfz
          rw [runAttempts_last cfg host now outs 0 attempt lastErr ths m houts hs hlt]
          rw [runAttempts_zero]
          simp [waitsOf, isConnOpen]

theorem isThrottledCheck_true_preserves (now : Nat) (host : String)
    (ths : List (String × Nat)) (h : (isThrottledCheck now host ths).1 = true) :
    (isThrottledCheck now host ths).2 = ths := by
  rw [isThrottledCheck] at h ⊢
  cases hg : getThrottle ths host with
  | none =>
    rw [hg] at h
    simp at h
  | some u =>
    rw [hg] at h
    by_cases hu : now < u
    · simp [hu]
    · simp [hu] at h

/-- C8: a call on a throttled host fails immediately with the throttle error,
before acquiring a slot and before opening any socket; the pool state —
active count, waiter queue, and the throttle map itself — is unchanged and
the trace is empty. -/
theorem C8_throttle_fast_fail (cfg : PoolCfg) (st : PoolSt) (host : String)
    (now wid : Nat) (outs : Nat → Outcome α)
    (h : (isThrottledCheck now host st.throttles).1 = true) :
    execute cfg st host now wid outs =
      (.thrown ("Provider " ++ host ++ " is temporarily throttled, try again later"),
       st, []) := by
  have h2 := isThrottledCheck_true_preserves now host st.throttles h
  rw [execute]
  simp [h, h2]

/-- Pool state with a live throttle entry for `pop.example`. -/
def throttledSt : PoolSt :=
  { active := 2, queue := [], throttles := [("pop.example", 1000)] }

/-- Pool configuration used in the witnesses. -/
def cfg9 : PoolCfg := { maxConcurrent := 10, maxRetries := 3, retryDelay := 100 }

/-- Attempt outcomes: first attempt fails transiently, second succeeds. -/
def outsMix : Nat → Outcome Nat :=
  fun n => if n == 1 then .err "connection reset" else .ok 7

/-- Attempt outcomes: every attempt hits a provider-throttle signal. -/
def outsThrottled : Nat → Outcome Nat :=
  fun _ => .err "too many connections from your IP"

/-- Attempt outcomes: every attempt succeeds. -/
def outsGood : Nat → Outcome Nat := fun _ => .ok 7

/-- Witness for `C8_throttle_fast_fail` on an explicit throttled pool. -/
theorem C8_throttle_fast_fail_witness :
    execute cfg9 throttledSt "pop.example" 500 0 outsGood =
      (.thrown ("Provider " ++ "pop.example" ++ " is temporarily throttled, try again later"),
       throttledSt, []) := by
  exact C8_throttle_fast_fail cfg9 throttledSt "pop.example" 500 0 outsGood (by decide)

/-- C9: the retry loop makes at most `maxRetries` attempts, each on a fresh
connection; the waits between consecutive attempts are exactly
`retryDelay * 2^(attempt-1)`; an attempt whose error carries a provider
throttle signal sets the 30 s host throttle and abandons the remaining
retries; a successful attempt runs the operation, issues QUIT and releases
the slot. -/
theorem C9_retry_loop (cfg : PoolCfg) (host : String) (now : Nat)
    (outs : Nat → Outcome α) (lastErr : Option String) (ths : List (String × Nat)) :
    ((runAttempts cfg host now outs cfg.maxRetries 1 none ths).1.countP isConnOpen ≤
      cfg.maxRetries) ∧
    (waitsOf (runAttempts cfg host now outs cfg.maxRetries 1 none ths).1 =
      (List.range
        ((runAttempts cfg host now outs cfg.maxRetries 1 none ths).1.countP isConnOpen
          - 1)).map (fun k => cfg.retryDelay * 2 ^ k)) ∧
    (∀ fuel attempt m, outs attempt = .err m → throttleSignal m = true →
      runAttempts cfg host now outs (fuel + 1) attempt lastErr ths =
        ([.connOpen, .throttleSet host (now + 30000), .slotReleased],
         .error (exhaustedMsg cfg.maxRetries (some m)),
         setThrottle ths host (now + 30000))) ∧
    (∀ fuel attempt a, outs attempt = .ok a →
      runAttempts cfg host now outs (fuel + 1) attempt lastErr ths =
        ([.connOpen, .quitCmd, .slotReleased], .ok a, ths)) := by
  refine ⟨runAttempts_connOpen_le cfg host now outs cfg.maxRetries 1 none ths, ?_, ?_, ?_⟩
  · have h := runAttempts_waits cfg host now outs cfg.maxRetries 1 none ths
      (by omega) (by omega)
    rw [h]
    refine List.map_congr_left ?_
    intro k _
    norm_num
  · intro fuel attempt m h1 h2
    exact runAttempts_signal cfg host now outs fuel attempt lastErr ths m h1 h2
  · intro fuel attempt a h1
    exact runAttempts_ok cfg host now outs fuel attempt lastErr ths a h1

/-- Witness for `C9_retry_loop` on explicit outcome sequences. -/
theorem C9_retry_loop_witness :
    ((runAttempts cfg9 "pop.example" 0 outsMix 3 1 none []).1.countP isConnOpen ≤ 3) ∧
    (waitsOf (runAttempts cfg9 "pop.example" 0 outsMix 3 1 none []).1 =
      (List.range
        ((runAttempts cfg9 "pop.example" 0 outsMix 3 1 none []).1.countP isConnOpen
          - 1)).map (fun k => 100 * 2 ^ k)) ∧
    (runAttempts cfg9 "pop.example" 0 outsThrottled 3 1 none [] =
      ([.connOpen, .throttleSet "pop.example" 30000, .slotReleased],
       .error (exhaustedMsg 3 (some "too many connections from your IP")),
       setThrottle [] "pop.example" 30000)) ∧
    (runAttempts cfg9 "pop.example" 0 outsGood 3 1 none [] =
      ([.connOpen, .quitCmd, .slotReleased], .ok 7, [])) := by
  have h1 := C9_retry_loop cfg9 "pop.example" 0 outsMix none ([] : List (String × Nat))
  have h2 := C9_retry_loop cfg9 "pop.example" 0 outsThrottled none ([] : List (String × Nat))
  have h3 := C9_retry_loop cfg9 "pop.example" 0 outsGood none ([] : List (String × Nat))
  refine ⟨h1.1, h1.2.1, ?_, ?_⟩
  · exact h2.2.2.1 2 1 "too many connections from your IP" rfl (by decide)
  · exact h3.2.2.2 2 1 7 rfl

/-- A slot-affecting action: an `execute` call acquiring (or queueing), or a
release function firing. -/
inductive SlotOp
  | acq (wid : Nat)
  | rel

/-- Apply one slot action to the pool state. -/
def applySlotOp (cfg : PoolCfg) (s : PoolSt) : SlotOp → PoolSt
  | .acq w => (acquireSlot cfg w s).1
  | .rel => (releaseSlot cfg s).1

theorem applySlotOp_active_le (cfg : PoolCfg) (s : PoolSt) (op : SlotOp)
    (h : s.active ≤ cfg.maxConcurrent) :
    (applySlotOp cfg s op).active ≤ cfg.maxConcurrent := by
  cases op with
  | acq w =>
    rw [applySlotOp, acquireSlot]
    split
    · simp
      omega
    · simp
      exact h
  | rel =>
    rw [applySlotOp, releaseSlot]
    split
    · simp
      omega
    · split
      · simp
        omega
      · simp
        omega

theorem foldl_slot_active_le (cfg : PoolCfg) :
    ∀ (ops : List SlotOp) (s : PoolSt), s.active ≤ cfg.maxConcurrent →
      (ops.foldl (applySlotOp cfg) s).active ≤ cfg.maxConcurrent
  | [], _, h => h
  | op :: rest, s, h =>
    foldl_slot_active_le cfg rest (applySlotOp cfg s op) (applySlotOp_active_le cfg s op h)

/-- Trace of an `execute` call that passed the throttle check and found a
free slot: the acquisition followed by the retry-loop events. -/
theorem execute_acquired_trace (cfg : PoolCfg) (st : PoolSt) (host : String)
    (now wid : Nat) (outs : Nat → Outcome α)
    (h1 : (isThrottledCheck now host st.throttles).1 = false)
    (h2 : st.active < cfg.maxConcurrent) :
    (execute cfg st host now wid outs).2.2 =
      .slotAcquired :: (runAttempts cfg host now outs cfg.maxRetries 1 none
        (isThrottledCheck now host st.throttles).2).1 := by
  rw [execute]
  simp [h1, h2]

/-- Trace of an `execute` call that was throttled or queued: empty. -/
theorem execute_no_slot_trace (cfg : PoolCfg) (st : PoolSt) (host : String)
    (now wid : Nat) (outs : Nat → Outcome α)
    (h : (isThrottledCheck now host st.throttles).1 = true ∨
      ¬ st.active < cfg.maxConcurrent) :
    (execute cfg st host now wid outs).2.2 = [] := by
  rw [execute]
  rcases h with h | h
  · simp [h]
  · by_cases ht : (isThrottledCheck now host st.throttles).1 = true
    · simp [ht]
    · simp [ht, h]

/-- C10: slot accounting — from an idle pool, no action sequence ever pushes
the active count above `maxConcurrent`; a release with a non-empty queue
wakes the oldest waiter; every retry-loop run releases the slot exactly once
on every exit path; and an `execute` trace contains exactly one release when
it acquired a slot and none when it did not. -/
theorem C10_slot_accounting (cfg : PoolCfg) (ops : List SlotOp) (s : PoolSt)
    (w : Nat) (rest : List Nat) (host : String) (now wid : Nat)
    (outs : Nat → Outcome α) (st : PoolSt) :
    ((ops.foldl (applySlotOp cfg) { active := 0, queue := [], throttles := [] }).active ≤
      cfg.maxConcurrent) ∧
    (s.queue = w :: rest → 1 ≤ s.active → s.active ≤ cfg.maxConcurrent →
      (releaseSlot cfg s).2 = some w) ∧
    (∀ fuel attempt lastErr ths,
      (runAttempts cfg host now outs fuel attempt lastErr ths).1.countP isRelease = 1) ∧
    ((execute cfg st host now wid outs).2.2.countP isAcquire = 1 →
      (execute cfg st host now wid outs).2.2.countP isRelease = 1) ∧
    ((execute cfg st host now wid outs).2.2.countP isAcquire = 0 →
      (execute cfg st host now wid outs).2.2.countP isRelease = 0) := by
  refine ⟨foldl_slot_active_le cfg ops _ (Nat.zero_le _), ?_, ?_, ?_, ?_⟩
  · intro hq h1 hle
    rw [releaseSlot, hq]
    have hcond : s.active - 1 < cfg.maxConcurrent := by omega
    simp [hcond]
  · intro fuel attempt lastErr ths
    exact runAttempts_release_once cfg host now outs fuel attempt lastErr ths
  · intro hacq
    by_cases ht : (isThrottledCheck now host st.throttles).1 = true
    · rw [execute_no_slot_trace cfg st host now wid outs (Or.inl ht)]
      rw [execute_no_slot_trace cfg st host now wid outs (Or.inl ht)] at hacq
      cases hacq
    · by_cases ha : st.active < cfg.maxConcurrent
      · rw [execute_acquired_trace cfg st host now wid outs
          (Bool.not_eq_true _ ▸ ht) ha]
        simp [List.countP_cons, isRelease, runAttempts_release_once cfg host now outs]
      · rw [execute_no_slot_trace cfg st host now wid outs (Or.inr ha)]
        rw [execute_no_slot_trace cfg st host now wid outs (Or.inr ha)] at hacq
        cases hacq
  · intro hacq
    by_cases ht : (isThrottledCheck now host st.throttles).1 = true
    · rw [execute_no_slot_trace cfg st host now wid outs (Or.inl ht)]
      rfl
    · by_cases ha : st.active < cfg.maxConcurrent
      · rw [execute_acquired_trace cfg st host now wid outs
          (Bool.not_eq_true _ ▸ ht) ha] at hacq
        simp [List.countP_cons, isAcquire] at hacq
      · rw [execute_no_slot_trace cfg st host now wid outs (Or.inr ha)]
        rfl

/-- Witness for `C10_slot_accounting` on explicit pool states. -/
theorem C10_slot_accounting_witness :
    (([SlotOp.acq 0, SlotOp.acq 1, SlotOp.rel].foldl (applySlotOp cfg9)
      { active := 0, queue := [], throttles := [] }).active ≤ 10) ∧
    ((releaseSlot cfg9 { active := 1, queue := [5, 6], throttles := [] }).2 = some 5) ∧
    ((runAttempts cfg9 "pop.example" 0 outsMix 3 1 none []).1.countP isRelease = 1) ∧
    ((execute cfg9 { active := 0, queue := [], throttles := [] } "pop.example" 0 0
        outsMix).2.2.countP isRelease = 1) := by
  have h := C10_slot_accounting cfg9 [SlotOp.acq 0, SlotOp.acq 1, SlotOp.rel]
    { active := 1, queue := [5, 6], throttles := [] } 5 [6] "pop.example" 0 0 outsMix
    { active := 0, queue := [], throttles := [] }
  exact ⟨h.1, h.2.1 rfl (by decide) (by decide), h.2.2.1 3 1 none [],
    h.2.2.2.1 (by decide)⟩
